import Mathlib

/-
Verification development for the MediocreBONK simulation core
(`src/MediocreBONK/src`): the pooled Entity/EntityManager lifecycle, the
uniform-grid spatial broad phase, the narrow-phase collider tests, the
collision-response passes, the deferred event bus, and the projectile
piercing bookkeeping.

Modelling conventions:
* C++ `float` quantities are idealised: exact rationals (`ℚ`) where the code
  only adds/divides/compares (SpatialGrid, timers), and real numbers (`ℝ`)
  where `std::sqrt` is involved (Utils::Math, Collider, separation).
* Entities are owned by the manager; the C++ `Entity*` raw pointers handed
  out by queries are modelled by the entity's numeric id.
* `uint64_t`/`uint32_t` ids, layers and masks are modelled as `Nat`
  (no arithmetic near the wrap-around boundary occurs in the modelled code).
* Component storage (`std::unordered_map<std::type_index, unique_ptr>`)
  is modelled as an association list from a numeric type key to an abstract
  numeric component state; the modelled EntityManager code never looks
  inside a component, it only tests presence.
-/

namespace MediocreBONK

/-! ## Vectors (sf::Vector2f) -/

/-- Two-dimensional vector, `sf::Vector2f` idealised over a scalar type. -/
structure Vec2 (α : Type) where
  x : α
  y : α
deriving DecidableEq, Repr

instance {α : Type} [Add α] : Add (Vec2 α) := ⟨fun a b => ⟨a.x + b.x, a.y + b.y⟩⟩

instance {α : Type} [Sub α] : Sub (Vec2 α) := ⟨fun a b => ⟨a.x - b.x, a.y - b.y⟩⟩

instance {α : Type} [Mul α] : SMul α (Vec2 α) := ⟨fun c v => ⟨c * v.x, c * v.y⟩⟩

theorem Vec2.sub_def {α : Type} [Sub α] (a b : Vec2 α) : a - b = ⟨a.x - b.x, a.y - b.y⟩ := rfl

theorem Vec2.add_def {α : Type} [Add α] (a b : Vec2 α) : a + b = ⟨a.x + b.x, a.y + b.y⟩ := rfl

theorem Vec2.smul_def {α : Type} [Mul α] (c : α) (v : Vec2 α) : c • v = ⟨c * v.x, c * v.y⟩ := rfl

theorem Vec2.sub_x {α : Type} [Sub α] (a b : Vec2 α) : (a - b).x = a.x - b.x := rfl

theorem Vec2.sub_y {α : Type} [Sub α] (a b : Vec2 α) : (a - b).y = a.y - b.y := rfl

theorem Vec2.add_x {α : Type} [Add α] (a b : Vec2 α) : (a + b).x = a.x + b.x := rfl

theorem Vec2.add_y {α : Type} [Add α] (a b : Vec2 α) : (a + b).y = a.y + b.y := rfl

/-! ## Utils::Math (src/Utils/Math.h) -/

/-- `Utils::Math::magnitude`: `std::sqrt(vec.x*vec.x + vec.y*vec.y)`. -/
noncomputable def magnitude (v : Vec2 ℝ) : ℝ := Real.sqrt (v.x * v.x + v.y * v.y)

/-- `Utils::Math::normalize`: zero vector when the magnitude is zero, else `vec / mag`. -/
noncomputable def normalizeVec (v : Vec2 ℝ) : Vec2 ℝ :=
  if magnitude v = 0 then ⟨0, 0⟩ else ⟨v.x / magnitude v, v.y / magnitude v⟩

/-- `Utils::Math::distance(a, b) = magnitude(b - a)`. -/
noncomputable def distance (a b : Vec2 ℝ) : ℝ := magnitude (b - a)

/-- `Utils::Math::distanceSquared(a, b)`. -/
def distanceSquared (a b : Vec2 ℝ) : ℝ :=
  (b.x - a.x) * (b.x - a.x) + (b.y - a.y) * (b.y - a.y)

theorem magnitude_nonneg (v : Vec2 ℝ) : 0 ≤ magnitude v := Real.sqrt_nonneg _

theorem magnitude_eval (a b : ℝ) : magnitude ⟨a, b⟩ = Real.sqrt (a * a + b * b) := rfl

/-- Evaluating a magnitude along the x axis. -/
theorem magnitude_axis (a : ℝ) (ha : 0 ≤ a) : magnitude ⟨a, 0⟩ = a := by
  rw [magnitude_eval]
  rw [mul_zero, add_zero, Real.sqrt_mul_self ha]

/-! ## Collider (src/ECS/Components/Collider.h) -/

/-- The two collision shapes. -/
inductive ColliderShape where
  | Circle
  | Rectangle
deriving DecidableEq, Repr

/-- `Collider` component data: shape, circle radius, rectangle size,
layer/mask bitfields (`uint32_t`, modelled as `Nat`), trigger flag. -/
structure Collider where
  shape : ColliderShape
  radius : ℝ
  size : Vec2 ℝ
  layer : Nat
  mask : Nat
  isTrigger : Bool

/-- The `Collider(shape, radius)` constructor: `size = (2r, 2r)`, `layer = 1`,
`mask = 0xFFFFFFFF`, not a trigger. -/
def mkRadiusCollider (shape : ColliderShape) (radius : ℝ) : Collider :=
  { shape := shape, radius := radius, size := ⟨radius * 2, radius * 2⟩
    layer := 1, mask := 0xFFFFFFFF, isTrigger := false }

/-- The `Collider(shape, size)` constructor: `radius = 0`, `layer = 1`,
`mask = 0xFFFFFFFF`, not a trigger. -/
def mkSizeCollider (shape : ColliderShape) (size : Vec2 ℝ) : Collider :=
  { shape := shape, radius := 0, size := size
    layer := 1, mask := 0xFFFFFFFF, isTrigger := false }

/-- `sf::FloatRect::findIntersection(...).has_value()` for the two
axis-aligned boxes centred at `pa`/`pb` with sizes `sa`/`sb` (SFML returns a
value exactly when the interiors overlap: strict inequalities). -/
def rectRectOverlap (pa sa pb sb : Vec2 ℝ) : Prop :=
  max (pa.x - sa.x / 2) (pb.x - sb.x / 2)
      < min (pa.x - sa.x / 2 + sa.x) (pb.x - sb.x / 2 + sb.x)
    ∧ max (pa.y - sa.y / 2) (pb.y - sb.y / 2)
      < min (pa.y - sa.y / 2 + sa.y) (pb.y - sb.y / 2 + sb.y)

/-- `Collider::circleRectIntersect`: clamp the circle centre to the box,
compare the squared distance with the squared radius. -/
def circleRectIntersect (circlePos : Vec2 ℝ) (circleRadius : ℝ)
    (rectPos rectSize : Vec2 ℝ) : Prop :=
  let rectLeft := rectPos.x - rectSize.x / 2
  let rectTop := rectPos.y - rectSize.y / 2
  let closestX := max rectLeft (min circlePos.x (rectLeft + rectSize.x))
  let closestY := max rectTop (min circlePos.y (rectTop + rectSize.y))
  (circlePos.x - closestX) * (circlePos.x - closestX)
      + (circlePos.y - closestY) * (circlePos.y - closestY)
    < circleRadius * circleRadius

/-- `Collider::intersects(other, thisPos, otherPos)`: the layer/mask gate,
then the three shape cases (circle–circle, rectangle–rectangle, mixed). -/
def Intersects (a b : Collider) (pa pb : Vec2 ℝ) : Prop :=
  if a.layer &&& b.mask = 0 ∧ b.layer &&& a.mask = 0 then
    False
  else if a.shape = ColliderShape.Circle ∧ b.shape = ColliderShape.Circle then
    distance pa pb < a.radius + b.radius
  else if a.shape = ColliderShape.Rectangle ∧ b.shape = ColliderShape.Rectangle then
    rectRectOverlap pa a.size pb b.size
  else if a.shape = ColliderShape.Circle then
    circleRectIntersect pa a.radius pb b.size
  else
    circleRectIntersect pb b.radius pa a.size

/-! ## SpatialGrid (src/Utils/SpatialGrid.h)

Positions and radii are exact rationals here; `static_cast<int>` on a
`float` truncates toward zero, modelled by `ratTrunc`. A grid cell is an
`Int × Int` coordinate pair (the C++ packs the pair into one 64-bit key
purely to index the hash map); the map is modelled as a function from cell
to the list of entity ids pushed into that cell, in insertion order. -/

/-- Truncation toward zero, the semantics of C++ `static_cast<int>(f)`. -/
def ratTrunc (q : ℚ) : ℤ := if 0 ≤ q then ⌊q⌋ else ⌈q⌉

/-- The grid cell index of coordinate `v` for cell size `cs`:
`static_cast<int>(v / cellSize)`. -/
def cellIndex (cs v : ℚ) : ℤ := ratTrunc (v / cs)

/-- An entity as the grid sees it: id, `Transform` position, `Collider` radius
(insert returns early unless both components are present). -/
structure GridEntry where
  id : Nat
  pos : Vec2 ℚ
  radius : ℚ
deriving DecidableEq, Repr

/-- Grid storage: cell coordinate pair to entity ids, in insertion order. -/
def Grid : Type := ℤ × ℤ → List Nat

/-- `SpatialGrid::clear()` resets to the empty grid. -/
def emptyGrid : Grid := fun _ => []

/-- Whether cell `c` is one of the cells the entity's bounding box
`(pos - radius, pos + radius)` overlaps, per the `insert` loop bounds. -/
def inCellRange (cs : ℚ) (e : GridEntry) (c : ℤ × ℤ) : Prop :=
  cellIndex cs (e.pos.x - e.radius) ≤ c.1 ∧ c.1 ≤ cellIndex cs (e.pos.x + e.radius)
    ∧ cellIndex cs (e.pos.y - e.radius) ≤ c.2 ∧ c.2 ≤ cellIndex cs (e.pos.y + e.radius)

instance (cs : ℚ) (e : GridEntry) (c : ℤ × ℤ) : Decidable (inCellRange cs e c) := by
  unfold inCellRange; infer_instance

/-- `SpatialGrid::insert`: push the entity id into every overlapped cell. -/
def insertGrid (cs : ℚ) (e : GridEntry) (g : Grid) : Grid :=
  fun c => if inCellRange cs e c then g c ++ [e.id] else g c

/-- Insert a list of entities into a cleared grid, in order. -/
def buildGrid (cs : ℚ) (es : List GridEntry) : Grid :=
  es.foldl (fun g e => insertGrid cs e g) emptyGrid

/-- The inclusive integer range `[a, b]` as a list. -/
def intRange (a b : ℤ) : List ℤ := (List.range (b - a + 1).toNat).map (fun i : ℕ => a + (i : ℤ))

/-- The cells scanned by `SpatialGrid::query(position, radius)`:
x in `[trunc((p.x-r)/cs), trunc((p.x+r)/cs)]`, y likewise, x outer loop. -/
def queryCells (cs : ℚ) (p : Vec2 ℚ) (r : ℚ) : List (ℤ × ℤ) :=
  (intRange (cellIndex cs (p.x - r)) (cellIndex cs (p.x + r))).flatMap fun cx =>
    (intRange (cellIndex cs (p.y - r)) (cellIndex cs (p.y + r))).map fun cy => (cx, cy)

/-- The concatenation step of `query`: all entities of all scanned cells. -/
def queryRaw (cs : ℚ) (g : Grid) (p : Vec2 ℚ) (r : ℚ) : List Nat :=
  (queryCells cs p r).flatMap fun c => g c

/-- `std::unique`: drop each element equal to its immediate predecessor. -/
def uniqAdj : List Nat → List Nat
  | [] => []
  | [a] => [a]
  | a :: b :: l => if a = b then uniqAdj (b :: l) else a :: uniqAdj (b :: l)

/-- `SpatialGrid::query`: collect the scanned cells, `std::sort`, then
`std::unique` to remove duplicates (C++ sorts raw pointers; the model sorts
the entity ids that stand for them). -/
def queryGrid (cs : ℚ) (g : Grid) (p : Vec2 ℚ) (r : ℚ) : List Nat :=
  uniqAdj (List.insertionSort (· ≤ ·) (queryRaw cs g p r))

/-- The axis-aligned bounding box `(pos ± radius)` of an inserted entity
intersects the axis-aligned bounding box of the circle of radius `r` at `p`. -/
def aabbIntersects (e : GridEntry) (p : Vec2 ℚ) (r : ℚ) : Prop :=
  e.pos.x - e.radius ≤ p.x + r ∧ p.x - r ≤ e.pos.x + e.radius
    ∧ e.pos.y - e.radius ≤ p.y + r ∧ p.y - r ≤ e.pos.y + e.radius

/-! ### SpatialGrid lemmas -/

theorem ratTrunc_mono {q r : ℚ} (h : q ≤ r) : ratTrunc q ≤ ratTrunc r := by
  unfold ratTrunc
  by_cases hq : 0 ≤ q
  · rw [if_pos hq, if_pos (le_trans hq h)]
    exact Int.floor_le_floor h
  · rw [if_neg hq]
    by_cases hr : 0 ≤ r
    · rw [if_pos hr]
      calc ⌈q⌉ ≤ ⌈(0 : ℚ)⌉ := Int.ceil_le_ceil (le_of_lt (lt_of_not_le hq))
        _ = 0 := by simp
        _ ≤ ⌊r⌋ := Int.le_floor.mpr (by exact_mod_cast hr)
    · rw [if_neg hr]
      exact Int.ceil_le_ceil h

theorem cellIndex_mono (cs : ℚ) (hcs : 0 < cs) {q r : ℚ} (h : q ≤ r) :
    cellIndex cs q ≤ cellIndex cs r :=
  ratTrunc_mono ((div_le_div_iff_of_pos_right hcs).mpr h)

theorem mem_intRange {a b x : ℤ} (ha : a ≤ x) (hb : x ≤ b) : x ∈ intRange a b := by
  unfold intRange
  have h1 : (x - a).toNat ∈ List.range (b - a + 1).toNat := List.mem_range.mpr (by omega)
  exact List.mem_map.mpr ⟨(x - a).toNat, h1, by omega⟩

theorem mem_queryCells {cs : ℚ} {p : Vec2 ℚ} {r : ℚ} {c : ℤ × ℤ}
    (hx1 : cellIndex cs (p.x - r) ≤ c.1) (hx2 : c.1 ≤ cellIndex cs (p.x + r))
    (hy1 : cellIndex cs (p.y - r) ≤ c.2) (hy2 : c.2 ≤ cellIndex cs (p.y + r)) :
    c ∈ queryCells cs p r := by
  unfold queryCells
  refine List.mem_flatMap.mpr ⟨c.1, mem_intRange hx1 hx2, ?_⟩
  exact List.mem_map.mpr ⟨c.2, mem_intRange hy1 hy2, rfl⟩

/-- Inserting preserves every id already present in a cell. -/
theorem insertGrid_mem_mono (cs : ℚ) (e : GridEntry) (g : Grid) (c : ℤ × ℤ)
    {i : Nat} (h : i ∈ g c) : i ∈ insertGrid cs e g c := by
  unfold insertGrid
  by_cases hc : inCellRange cs e c
  · rw [if_pos hc]; exact List.mem_append_left _ h
  · rwa [if_neg hc]

/-- Inserting an entity puts its id into every cell its box overlaps. -/
theorem insertGrid_mem_self (cs : ℚ) (e : GridEntry) (g : Grid) (c : ℤ × ℤ)
    (hc : inCellRange cs e c) : e.id ∈ insertGrid cs e g c := by
  unfold insertGrid
  rw [if_pos hc]
  exact List.mem_append_right _ (List.mem_singleton.mpr rfl)

/-- Folding inserts over a list only ever grows each cell's list. -/
theorem foldl_insertGrid_mono (cs : ℚ) (es : List GridEntry) (c : ℤ × ℤ) :
    ∀ (g0 : Grid) {i : Nat}, i ∈ g0 c →
      i ∈ (es.foldl (fun g x => insertGrid cs x g) g0) c := by
  induction es with
  | nil => intro g0 i h; simpa using h
  | cons a as ih =>
    intro g0 i h
    rw [List.foldl_cons]
    exact ih _ (insertGrid_mem_mono cs a g0 c h)

theorem foldl_insertGrid_mem (cs : ℚ) (es : List GridEntry) {e : GridEntry}
    (he : e ∈ es) (c : ℤ × ℤ) (hc : inCellRange cs e c) :
    ∀ (g0 : Grid), e.id ∈ (es.foldl (fun g x => insertGrid cs x g) g0) c := by
  induction es with
  | nil => cases he
  | cons a as ih =>
    intro g0
    rw [List.foldl_cons]
    rcases List.mem_cons.mp he with rfl | hmem
    · exact foldl_insertGrid_mono cs as c _ (insertGrid_mem_self cs e g0 c hc)
    · exact ih hmem _

theorem buildGrid_mem (cs : ℚ) (es : List GridEntry) {e : GridEntry}
    (he : e ∈ es) (c : ℤ × ℤ) (hc : inCellRange cs e c) :
    e.id ∈ buildGrid cs es c :=
  foldl_insertGrid_mem cs es he c hc emptyGrid

theorem mem_uniqAdj {l : List Nat} {x : Nat} : x ∈ uniqAdj l ↔ x ∈ l := by
  induction l with
  | nil => simp [uniqAdj]
  | cons a t ih =>
    cases t with
    | nil => simp [uniqAdj]
    | cons b t' =>
      by_cases hab : a = b
      · subst hab
        rw [uniqAdj, if_pos rfl]
        rw [ih]
        constructor
        · intro h; exact List.mem_cons_of_mem _ h
        · intro h
          rcases List.mem_cons.mp h with rfl | h2
          · exact List.mem_cons_self _ _
          · exact h2
      · rw [uniqAdj, if_neg hab]
        simp only [List.mem_cons] at ih ⊢
        rw [ih]

/-- `uniqAdj` always starts with the head of its (nonempty) input. -/
theorem uniqAdj_cons_head (b : Nat) (t : List Nat) :
    ∃ t', uniqAdj (b :: t) = b :: t' := by
  induction t generalizing b with
  | nil => exact ⟨[], rfl⟩
  | cons c t' ih =>
    by_cases hbc : b = c
    · subst hbc
      rw [uniqAdj, if_pos rfl]
      exact ih b
    · rw [uniqAdj, if_neg hbc]
      exact ⟨uniqAdj (c :: t'), rfl⟩

/-- On a `≤`-sorted list, dropping adjacent duplicates yields a strict chain. -/
theorem uniqAdj_chain'_lt {l : List Nat} (hl : List.Chain' (· ≤ ·) l) :
    List.Chain' (· < ·) (uniqAdj l) := by
  induction l with
  | nil => simp [uniqAdj]
  | cons a t ih =>
    cases t with
    | nil => simp [uniqAdj]
    | cons b t' =>
      have htail : List.Chain' (· ≤ ·) (b :: t') := hl.tail
      have hab : a ≤ b := List.chain'_cons.mp hl |>.1
      by_cases heq : a = b
      · subst heq
        rw [uniqAdj, if_pos rfl]
        exact ih htail
      · rw [uniqAdj, if_neg heq]
        obtain ⟨t'', ht''⟩ := uniqAdj_cons_head b t'
        rw [ht'']
        rw [List.chain'_cons]
        refine ⟨lt_of_le_of_ne hab heq, ?_⟩
        have := ih htail
        rwa [ht''] at this

theorem uniqAdj_nodup {l : List Nat} (hl : List.Chain' (· ≤ ·) l) :
    (uniqAdj l).Nodup := by
  have h := uniqAdj_chain'_lt hl
  have hp : List.Pairwise (· < ·) (uniqAdj l) := List.chain'_iff_pairwise.mp h
  exact hp.imp (fun h => Nat.ne_of_lt h)

theorem queryGrid_mem {cs : ℚ} {g : Grid} {p : Vec2 ℚ} {r : ℚ} {i : Nat} :
    i ∈ queryGrid cs g p r ↔ i ∈ queryRaw cs g p r := by
  unfold queryGrid
  rw [mem_uniqAdj]
  exact List.Perm.mem_iff (List.perm_insertionSort _ _)

theorem queryGrid_nodup (cs : ℚ) (g : Grid) (p : Vec2 ℚ) (r : ℚ) :
    (queryGrid cs g p r).Nodup := by
  unfold queryGrid
  apply uniqAdj_nodup
  rw [List.chain'_iff_pairwise]
  exact List.sorted_insertionSort (· ≤ ·) (queryRaw cs g p r)

/-- From intersecting bounding boxes, a common grid cell exists whose
coordinates lie both in the inserted entity's cell range and in the query's
scanned cell range. -/
theorem common_cell (cs : ℚ) (hcs : 0 < cs) (e : GridEntry) (p : Vec2 ℚ) (r : ℚ)
    (hab : aabbIntersects e p r) (her : 0 ≤ e.radius) (hr : 0 ≤ r) :
    ∃ c : ℤ × ℤ, inCellRange cs e c
      ∧ cellIndex cs (p.x - r) ≤ c.1 ∧ c.1 ≤ cellIndex cs (p.x + r)
      ∧ cellIndex cs (p.y - r) ≤ c.2 ∧ c.2 ≤ cellIndex cs (p.y + r) := by
  obtain ⟨h1, h2, h3, h4⟩ := hab
  -- a point in the overlap of the x-intervals and of the y-intervals
  refine ⟨(cellIndex cs (max (e.pos.x - e.radius) (p.x - r)),
           cellIndex cs (max (e.pos.y - e.radius) (p.y - r))), ?_, ?_, ?_, ?_, ?_⟩
  · refine ⟨?_, ?_, ?_, ?_⟩
    · exact cellIndex_mono cs hcs (le_max_left _ _)
    · exact cellIndex_mono cs hcs (max_le (by linarith) (by linarith))
    · exact cellIndex_mono cs hcs (le_max_left _ _)
    · exact cellIndex_mono cs hcs (max_le (by linarith) (by linarith))
  · exact cellIndex_mono cs hcs (le_max_right _ _)
  · exact cellIndex_mono cs hcs (max_le (by linarith) (by linarith))
  · exact cellIndex_mono cs hcs (le_max_right _ _)
  · exact cellIndex_mono cs hcs (max_le (by linarith) (by linarith))

/-- C2: after clearing the grid and inserting a sequence of entities (each
carrying a Transform position and a Collider radius), every inserted entity
whose axis-aligned bounding box (position ± radius) intersects the
axis-aligned bounding box of the circle of radius `r` at `p` appears in the
result of `query(p, r)`, and the result contains no entity more than once. -/
theorem spatialGrid_query_no_false_negatives
    (cs : ℚ) (hcs : 0 < cs) (es : List GridEntry) (e : GridEntry) (he : e ∈ es)
    (her : 0 ≤ e.radius) (p : Vec2 ℚ) (r : ℚ) (hr : 0 ≤ r)
    (hab : aabbIntersects e p r) :
    e.id ∈ queryGrid cs (buildGrid cs es) p r
      ∧ (queryGrid cs (buildGrid cs es) p r).Nodup := by
  constructor
  · rw [queryGrid_mem]
    obtain ⟨c, hc, hx1, hx2, hy1, hy2⟩ := common_cell cs hcs e p r hab her hr
    unfold queryRaw
    exact List.mem_flatMap.mpr
      ⟨c, mem_queryCells hx1 hx2 hy1 hy2, buildGrid_mem cs es he c hc⟩
  · exact queryGrid_nodup _ _ _ _

/-- Concrete run of C2: cell size 100, one entity (id 7) at (80, 50) with
radius 10, query at (120, 50) with radius 35; the boxes intersect and the
query finds the entity, without duplicates. -/
theorem spatialGrid_query_no_false_negatives_witness :
    7 ∈ queryGrid 100 (buildGrid 100 [⟨7, ⟨80, 50⟩, 10⟩]) ⟨120, 50⟩ 35
      ∧ (queryGrid 100 (buildGrid 100 [⟨7, ⟨80, 50⟩, 10⟩]) ⟨120, 50⟩ 35).Nodup :=
  spatialGrid_query_no_false_negatives 100 (by norm_num) [⟨7, ⟨80, 50⟩, 10⟩]
    ⟨7, ⟨80, 50⟩, 10⟩ (List.mem_singleton.mpr rfl) (by norm_num) ⟨120, 50⟩ 35
    (by norm_num) ⟨by norm_num, by norm_num, by norm_num, by norm_num⟩

/-! ## Entity (src/ECS/Entity.h) and EntityManager (src/ECS/EntityManager.h)

Component instances are abstracted to `(type key, state)` pairs: the
EntityManager code being modelled only ever tests component presence and
copies entities around; it never inspects a component's interior. -/

/-- `Entity`: id, tag, layer, active flag and the owned component map. -/
structure Entity where
  id : Nat
  tag : String
  layer : Nat
  active : Bool
  components : List (Nat × Nat)
deriving DecidableEq, Repr

/-- `Entity::setActive`. -/
def setActive (e : Entity) (isActive : Bool) : Entity := { e with active := isActive }

/-- `Entity::hasComponent<T>` for type key `k`. -/
def hasComponent (e : Entity) (k : Nat) : Bool := e.components.any (fun c => c.1 = k)

/-- The `Entity(id)` constructor: active, empty tag, layer 0, no components. -/
def mkEntity (id : Nat) : Entity :=
  { id := id, tag := "", layer := 0, active := true, components := [] }

/-- `EntityManager` state. `cleanupInterval` is 0.5 s, `maxEntities`
defaults to 500; both stay symbolic. The tag cache maps a tag to the ids of
the active entities cached for it (C++ stores `Entity*` weak pointers). -/
structure EntityManager where
  entities : List Entity
  maxEntities : Nat
  nextId : Nat
  cleanupTimer : ℚ
  cleanupInterval : ℚ
  tagCache : List (String × List Nat)
  tagCacheDirty : Bool
deriving DecidableEq, Repr

/-- `std::find_if` + `setActive(true)` of the pooled-reuse path: the first
inactive entity is reactivated in place; `none` when all are active. -/
def reuseFirstInactive : List Entity → Option (List Entity × Nat)
  | [] => none
  | e :: rest =>
    if e.active then
      match reuseFirstInactive rest with
      | some (rest', i) => some (e :: rest', i)
      | none => none
    else
      some (setActive e true :: rest, e.id)

/-- `EntityManager::createEntity`: below the cap, append a fresh entity with
the next id and mark the tag cache dirty; at the cap, reactivate the first
inactive entity (without touching the dirty flag — see C4) or fail with
`none` (C++ `nullptr`). Returns the new manager and the created entity's id. -/
def createEntity (m : EntityManager) : EntityManager × Option Nat :=
  if m.maxEntities ≤ m.entities.length then
    match reuseFirstInactive m.entities with
    | some (es, i) => ({ m with entities := es }, some i)
    | none => (m, none)
  else
    ({ m with entities := m.entities ++ [mkEntity m.nextId],
              nextId := m.nextId + 1, tagCacheDirty := true },
     some m.nextId)

/-- `std::find_if` by id + `setActive(false)` used by `destroyEntity`. -/
def deactivateFirst : List Entity → Nat → List Entity
  | [], _ => []
  | e :: rest, i => if e.id = i then setActive e false :: rest else e :: deactivateFirst rest i

/-- `EntityManager::destroyEntity(id)`: deactivate the entity when found and
mark the tag cache dirty; no physical removal. -/
def destroyEntity (m : EntityManager) (i : Nat) : EntityManager :=
  if m.entities.any (fun e => e.id = i) then
    { m with entities := deactivateFirst m.entities i, tagCacheDirty := true }
  else m

/-- `EntityManager::getEntityCount`: number of active entities. -/
def getEntityCount (m : EntityManager) : Nat := m.entities.countP (fun e => e.active)

/-- `EntityManager::getTotalEntityCount`. -/
def getTotalEntityCount (m : EntityManager) : Nat := m.entities.length

/-- Association-list lookup behind `tagCache.find(tag)`; an absent tag
yields the static empty vector. -/
def lookupTag : List (String × List Nat) → String → List Nat
  | [], _ => []
  | (t, l) :: rest, tag => if t = tag then l else lookupTag rest tag

/-- `EntityManager::getEntitiesByTag`: read the cache as-is (no rebuild). -/
def getEntitiesByTag (m : EntityManager) (tag : String) : List Nat :=
  lookupTag m.tagCache tag

/-- `EntityManager::getEntitiesWithComponent<T>`: linear scan over active
entities holding the component. -/
def getEntitiesWithComponent (m : EntityManager) (k : Nat) : List Nat :=
  (m.entities.filter (fun e => e.active && hasComponent e k)).map Entity.id

/-- `EntityManager::getEntitiesWithComponents<T1, T2, ...>`: active entities
holding every listed component. -/
def getEntitiesWithComponents (m : EntityManager) (ks : List Nat) : List Nat :=
  (m.entities.filter (fun e => e.active && ks.all (fun k => hasComponent e k))).map Entity.id

/-- `tagCache[entity->tag].push_back(entity)` on an association list. -/
def insertTag (cache : List (String × List Nat)) (tag : String) (i : Nat) :
    List (String × List Nat) :=
  match cache with
  | [] => [(tag, [i])]
  | (t, l) :: rest => if t = tag then (t, l ++ [i]) :: rest else (t, l) :: insertTag rest tag i

/-- The cache rebuild loop of `EntityManager::update`: every active entity
with a nonempty tag is appended to its tag's bucket, in storage order. -/
def rebuildTagCache (es : List Entity) : List (String × List Nat) :=
  es.foldl (fun c e => if e.active ∧ e.tag ≠ "" then insertTag c e.tag e.id else c) []

/-- `EntityManager::cleanupInactiveEntities`: no-op below the threshold of
10 inactive entities, otherwise erase every inactive entity and mark the
cache dirty when anything was erased. -/
def cleanupInactiveEntities (m : EntityManager) : EntityManager :=
  let beforeCount := m.entities.length
  let inactiveCount := beforeCount - getEntityCount m
  if inactiveCount < 10 then m
  else
    let kept := m.entities.filter (fun e => e.active)
    { m with entities := kept,
             tagCacheDirty := if beforeCount ≠ kept.length then true else m.tagCacheDirty }

/-- `EntityManager::update(dt)`: advance the cleanup timer and compact when
it expires, then rebuild the tag cache when dirty. (The final loop delegating
`update(dt)` to each active entity's polymorphic components is outside this
model: it does not touch the manager state the claims are about.) -/
def update (m : EntityManager) (dt : ℚ) : EntityManager :=
  let m1 :=
    if m.cleanupTimer + dt ≥ m.cleanupInterval then
      { cleanupInactiveEntities m with cleanupTimer := 0 }
    else
      { m with cleanupTimer := m.cleanupTimer + dt }
  if m1.tagCacheDirty then
    { m1 with tagCache := rebuildTagCache m1.entities, tagCacheDirty := false }
  else m1

/-! ### EntityManager lemmas -/

/-- When every entity is active, the pooled-reuse scan fails. -/
theorem reuseFirstInactive_none {l : List Entity} (h : ∀ e ∈ l, e.active = true) :
    reuseFirstInactive l = none := by
  induction l with
  | nil => rfl
  | cons e rest ih =>
    unfold reuseFirstInactive
    rw [if_pos (h e (List.mem_cons_self e rest))]
    rw [ih (fun x hx => h x (List.mem_cons_of_mem e hx))]

/-- When some entity is inactive, the pooled-reuse scan succeeds. -/
theorem reuseFirstInactive_isSome {l : List Entity} {e₀ : Entity}
    (hmem : e₀ ∈ l) (hinact : e₀.active = false) :
    (reuseFirstInactive l).isSome := by
  induction l with
  | nil => cases hmem
  | cons e rest ih =>
    unfold reuseFirstInactive
    by_cases ha : e.active
    · rw [if_pos ha]
      rcases List.mem_cons.mp hmem with rfl | hmem'
      · rw [ha] at hinact; cases hinact
      · have := ih hmem'
        cases hr : reuseFirstInactive rest with
        | none => rw [hr] at this; cases this
        | some p => cases p with | mk es i => simp
    · rw [if_neg ha]; rfl

/-- The pooled-reuse scan splits the entity list at the first inactive
entity, reactivates exactly that entity, and returns its id. -/
theorem reuseFirstInactive_spec {l : List Entity} {es : List Entity} {i : Nat}
    (h : reuseFirstInactive l = some (es, i)) :
    ∃ pre e post, l = pre ++ e :: post ∧ e.active = false
      ∧ (∀ x ∈ pre, x.active = true)
      ∧ es = pre ++ setActive e true :: post ∧ i = e.id := by
  induction l generalizing es i with
  | nil => cases h
  | cons e rest ih =>
    unfold reuseFirstInactive at h
    by_cases ha : e.active
    · rw [if_pos ha] at h
      cases hr : reuseFirstInactive rest with
      | none => rw [hr] at h; cases h
      | some p =>
        cases p with
        | mk es' i' =>
          rw [hr] at h
          injection h with h1
          injection h1 with h2 h3
          obtain ⟨pre, e₁, post, hsplit, hinact1, hpre, hes, hid⟩ := ih hr
          subst h3
          refine ⟨e :: pre, e₁, post, by rw [hsplit]; rfl, hinact1, ?_, ?_, hid⟩
          · intro x hx
            rcases List.mem_cons.mp hx with rfl | hx'
            · exact ha
            · exact hpre x hx'
          · rw [← h2, hes]; rfl
    · rw [if_neg ha] at h
      injection h with h1
      injection h1 with h2 h3
      exact ⟨[], e, rest, rfl, Bool.not_eq_true _ ▸ (by simpa using ha), by simp,
        by rw [← h2]; rfl, h3.symm⟩

/-- Reactivating the first inactive entity raises the active count by one
and keeps the total count. -/
theorem reuseFirstInactive_counts {l es : List Entity} {i : Nat}
    (h : reuseFirstInactive l = some (es, i)) :
    es.countP (fun e => e.active) = l.countP (fun e => e.active) + 1
      ∧ es.length = l.length := by
  obtain ⟨pre, e, post, hl, hinact, _, hes, _⟩ := reuseFirstInactive_spec h
  subst hl hes
  constructor
  · simp [List.countP_append, List.countP_cons, setActive, hinact]
    omega
  · simp [setActive]

/-- C1: at (or beyond) the entity cap, `createEntity()` fails with the
explicit failure value and leaves the collection unchanged when every stored
entity is active; when at least one stored entity is inactive it reactivates
one and returns it, so the active count rises by exactly 1 and the total
stored count does not grow. -/
theorem createEntity_at_cap (m : EntityManager)
    (hcap : m.maxEntities ≤ m.entities.length) :
    ((∀ e ∈ m.entities, e.active = true) → createEntity m = (m, none))
    ∧ ((∃ e ∈ m.entities, e.active = false) →
        ∃ i, (createEntity m).2 = some i
          ∧ getEntityCount (createEntity m).1 = getEntityCount m + 1
          ∧ getTotalEntityCount (createEntity m).1 = getTotalEntityCount m) := by
  constructor
  · intro hall
    unfold createEntity
    rw [if_pos hcap, reuseFirstInactive_none hall]
  · rintro ⟨e₀, hmem, hinact⟩
    have hsome := reuseFirstInactive_isSome hmem hinact
    cases hr : reuseFirstInactive m.entities with
    | none => rw [hr] at hsome; cases hsome
    | some p =>
      cases p with
      | mk es i =>
        obtain ⟨hcount, hlen⟩ := reuseFirstInactive_counts hr
        have hce : createEntity m = ({ m with entities := es }, some i) := by
          unfold createEntity
          rw [if_pos hcap, hr]
        refine ⟨i, ?_, ?_, ?_⟩
        · rw [hce]
        · rw [hce]; simpa [getEntityCount] using hcount
        · rw [hce]; simpa [getTotalEntityCount] using hlen

/-- A 1-capacity manager holding one inactive entity, its tag cache clean:
the input on which C1's reuse branch and C4's missing dirty-flag fire. -/
def mgrOneInactive : EntityManager :=
  { entities := [{ id := 0, tag := "Enemy", layer := 0, active := false,
                   components := [(1, 42)] }]
    maxEntities := 1, nextId := 1, cleanupTimer := 0, cleanupInterval := 1/2
    tagCache := [], tagCacheDirty := false }

/-- A 1-capacity manager holding one active entity: C1's failure branch. -/
def mgrOneActive : EntityManager :=
  { entities := [{ id := 0, tag := "Enemy", layer := 0, active := true,
                   components := [] }]
    maxEntities := 1, nextId := 1, cleanupTimer := 0, cleanupInterval := 1/2
    tagCache := [("Enemy", [0])], tagCacheDirty := false }

theorem createEntity_at_cap_witness :
    createEntity mgrOneActive = (mgrOneActive, none)
      ∧ ∃ i, (createEntity mgrOneInactive).2 = some i
          ∧ getEntityCount (createEntity mgrOneInactive).1
              = getEntityCount mgrOneInactive + 1
          ∧ getTotalEntityCount (createEntity mgrOneInactive).1
              = getTotalEntityCount mgrOneInactive :=
  ⟨(createEntity_at_cap mgrOneActive (by decide)).1 (by decide),
   (createEntity_at_cap mgrOneInactive (by decide)).2
     ⟨mgrOneInactive.entities.head (by decide), by decide, by decide⟩⟩

/-- C10: an entity handed out by the pooled-reuse path of `createEntity()`
keeps its id, tag, layer and component map (with state) exactly as they were
when it was destroyed; only the active flag changes, and every other stored
entity is untouched. -/
theorem createEntity_reuse_preserves_state (m m' : EntityManager) (i : Nat)
    (hcap : m.maxEntities ≤ m.entities.length)
    (h : createEntity m = (m', some i)) :
    ∃ pre e post, m.entities = pre ++ e :: post ∧ e.active = false
      ∧ m'.entities = pre ++ setActive e true :: post
      ∧ i = e.id
      ∧ (setActive e true).id = e.id
      ∧ (setActive e true).tag = e.tag
      ∧ (setActive e true).layer = e.layer
      ∧ (setActive e true).components = e.components
      ∧ (setActive e true).active = true
      ∧ m'.maxEntities = m.maxEntities ∧ m'.nextId = m.nextId
      ∧ m'.tagCache = m.tagCache := by
  unfold createEntity at h
  rw [if_pos hcap] at h
  cases hr : reuseFirstInactive m.entities with
  | none => rw [hr] at h; cases h
  | some p =>
    cases p with
    | mk es j =>
      rw [hr] at h
      injection h with h1 h2
      injection h2 with h3
      obtain ⟨pre, e, post, hsplit, hinact, _, hes, hid⟩ := reuseFirstInactive_spec hr
      exact ⟨pre, e, post, hsplit, hinact, by rw [← h1, hes], h3 ▸ hid, rfl, rfl, rfl,
        rfl, rfl, by rw [← h1], by rw [← h1], by rw [← h1]⟩

theorem createEntity_reuse_preserves_state_witness :
    ∃ pre e post, mgrOneInactive.entities = pre ++ e :: post ∧ e.active = false
      ∧ (createEntity mgrOneInactive).1.entities = pre ++ setActive e true :: post
      ∧ 0 = e.id
      ∧ (setActive e true).id = e.id
      ∧ (setActive e true).tag = e.tag
      ∧ (setActive e true).layer = e.layer
      ∧ (setActive e true).components = e.components
      ∧ (setActive e true).active = true
      ∧ (createEntity mgrOneInactive).1.maxEntities = mgrOneInactive.maxEntities
      ∧ (createEntity mgrOneInactive).1.nextId = mgrOneInactive.nextId
      ∧ (createEntity mgrOneInactive).1.tagCache = mgrOneInactive.tagCache :=
  createEntity_reuse_preserves_state mgrOneInactive (createEntity mgrOneInactive).1 0
    (by decide) rfl

/-- When the cache is clean and the cleanup timer does not expire,
`update` only advances the timer. -/
theorem update_no_rebuild (m : EntityManager) (dt : ℚ)
    (hd : m.tagCacheDirty = false)
    (ht : ¬ (m.cleanupTimer + dt ≥ m.cleanupInterval)) :
    update m dt = { m with cleanupTimer := m.cleanupTimer + dt } := by
  unfold update
  rw [if_neg ht]
  simp [hd]

/-- C4 (failing input): on the pooled-reuse path `createEntity()` returns a
reactivated tagged entity but leaves `tagCacheDirty` false, so the following
`update()` does not rebuild the cache and a tag query still misses the
reactivated entity. (`destroyEntity` does set the flag.) -/
theorem createEntity_reuse_leaves_cache_clean :
    (createEntity mgrOneInactive).2 = some 0
      ∧ (createEntity mgrOneInactive).1.tagCacheDirty = false
      ∧ getEntitiesByTag (update (createEntity mgrOneInactive).1 (1/4)) "Enemy" = []
      ∧ (∃ e ∈ (update (createEntity mgrOneInactive).1 (1/4)).entities,
          e.id = 0 ∧ e.tag = "Enemy" ∧ e.active = true)
      ∧ (destroyEntity mgrOneActive 0).tagCacheDirty = true := by
  have hm' : (createEntity mgrOneInactive).1 =
      { mgrOneInactive with
          entities := [{ id := 0, tag := "Enemy", layer := 0, active := true,
                         components := [(1, 42)] }] } := by
    rfl
  have hup : update (createEntity mgrOneInactive).1 (1/4) =
      { (createEntity mgrOneInactive).1 with
          cleanupTimer := (createEntity mgrOneInactive).1.cleanupTimer + 1/4 } := by
    apply update_no_rebuild
    · rfl
    · rw [hm']
      show ¬ ((0 : ℚ) + 1/4 ≥ 1/2)
      norm_num
  refine ⟨rfl, rfl, ?_, ?_, by decide⟩
  · rw [hup, hm']
    rfl
  · rw [hup, hm']
    exact ⟨_, List.mem_cons_self _ _, rfl, rfl, rfl⟩

/-- C3 (counterexample): with a freshly rebuilt cache, destroying the only
"Enemy" entity and then calling `getEntitiesByTag("Enemy")` later in the
same tick still returns the destroyed entity — the cache is only rebuilt on
the next `update()`, so the claim that a destroyed entity is absent from
every same-tick tag query is false. -/
theorem destroyEntity_tag_query_stale :
    0 ∈ getEntitiesByTag (destroyEntity mgrOneActive 0) "Enemy"
      ∧ ∀ e ∈ (destroyEntity mgrOneActive 0).entities, e.active = false := by
  decide

/-- After `deactivateFirst`, every entity carrying the destroyed id is
inactive (ids are unique in a manager: `nextId` is monotone). -/
theorem deactivateFirst_id_inactive {l : List Entity} {i : Nat}
    (hnodup : (l.map Entity.id).Nodup) :
    ∀ e ∈ deactivateFirst l i, e.id = i → e.active = false := by
  induction l with
  | nil => intro e he; cases he
  | cons a rest ih =>
    rw [List.map_cons, List.nodup_cons] at hnodup
    obtain ⟨hhead, htail⟩ := hnodup
    intro e he hid
    unfold deactivateFirst at he
    by_cases hai : a.id = i
    · rw [if_pos hai] at he
      rcases List.mem_cons.mp he with rfl | he'
      · rfl
      · exfalso
        apply hhead
        rw [hai, ← hid]
        exact List.mem_map_of_mem Entity.id he'
    · rw [if_neg hai] at he
      rcases List.mem_cons.mp he with rfl | he'
      · exact absurd hid hai
      · exact ih htail e he' hid

/-- Membership through `insertTag`: an id found in the cache after a push
was already cached or is the pushed id. -/
theorem lookupTag_insertTag {c : List (String × List Nat)} {t tag : String} {j x : Nat}
    (h : x ∈ lookupTag (insertTag c t j) tag) : x ∈ lookupTag c tag ∨ x = j := by
  induction c with
  | nil =>
    unfold insertTag lookupTag at h
    by_cases htt : t = tag
    · rw [if_pos htt] at h
      right
      simpa using h
    · rw [if_neg htt] at h
      cases h
  | cons p rest ih =>
    cases p with
    | mk t' l =>
      unfold insertTag at h
      by_cases ht' : t' = t
      · rw [if_pos ht'] at h
        unfold lookupTag at h ⊢
        by_cases htag : t' = tag
        · rw [if_pos htag] at h ⊢
          rcases List.mem_append.mp h with h1 | h1
          · exact Or.inl h1
          · exact Or.inr (by simpa using h1)
        · rw [if_neg htag] at h ⊢
          exact Or.inl h
      · rw [if_neg ht'] at h
        unfold lookupTag at h ⊢
        by_cases htag : t' = tag
        · rw [if_pos htag] at h ⊢
          exact Or.inl h
        · rw [if_neg htag] at h ⊢
          exact ih h

/-- The rebuilt cache never lists an id all of whose entities are inactive. -/
theorem rebuild_not_mem {i : Nat} :
    ∀ (es : List Entity) (c : List (String × List Nat)),
      (∀ tag, i ∉ lookupTag c tag) →
      (∀ e ∈ es, e.id = i → e.active = false) →
      ∀ tag, i ∉ lookupTag
        (es.foldl (fun c e => if e.active ∧ e.tag ≠ "" then insertTag c e.tag e.id else c) c)
        tag := by
  intro es
  induction es with
  | nil => intro c hc _ tag; exact hc tag
  | cons e rest ih =>
    intro c hc hP tag
    rw [List.foldl_cons]
    apply ih _ _ (fun x hx hid => hP x (List.mem_cons_of_mem e hx) hid)
    intro tag'
    by_cases hcond : e.active ∧ e.tag ≠ ""
    · rw [if_pos hcond]
      intro hmem
      rcases lookupTag_insertTag hmem with h1 | h1
      · exact hc tag' h1
      · have := hP e (List.mem_cons_self e rest) h1.symm
        rw [this] at hcond
        simp at hcond
    · rw [if_neg hcond]
      exact hc tag'

theorem cleanup_keeps_dirty {m : EntityManager} (hd : m.tagCacheDirty = true) :
    (cleanupInactiveEntities m).tagCacheDirty = true := by
  unfold cleanupInactiveEntities
  by_cases hlt : m.entities.length - getEntityCount m < 10
  · rw [if_pos hlt]; exact hd
  · rw [if_neg hlt]
    by_cases hne : m.entities.length ≠ (m.entities.filter (fun e => e.active)).length
    · simp only [if_pos hne]
    · simp only [if_neg hne]; exact hd

theorem cleanup_entities_subset {m : EntityManager} :
    ∀ e ∈ (cleanupInactiveEntities m).entities, e ∈ m.entities := by
  unfold cleanupInactiveEntities
  by_cases hlt : m.entities.length - getEntityCount m < 10
  · rw [if_pos hlt]; exact fun e he => he
  · rw [if_neg hlt]
    intro e he
    exact List.mem_of_mem_filter (by simpa using he)

/-- With a dirty cache, `update` rebuilds the cache from (a sublist of) the
manager's entities. -/
theorem update_rebuilds {m : EntityManager} (dt : ℚ) (hd : m.tagCacheDirty = true) :
    ∃ es : List Entity, (∀ e ∈ es, e ∈ m.entities)
      ∧ (update m dt).tagCache = rebuildTagCache es := by
  unfold update
  by_cases ht : m.cleanupTimer + dt ≥ m.cleanupInterval
  · rw [if_pos ht]
    have hd1 : ({ cleanupInactiveEntities m with cleanupTimer := 0 }).tagCacheDirty = true :=
      cleanup_keeps_dirty hd
    rw [if_pos hd1]
    exact ⟨(cleanupInactiveEntities m).entities, cleanup_entities_subset, rfl⟩
  · rw [if_neg ht]
    have hd1 : ({ m with cleanupTimer := m.cleanupTimer + dt }).tagCacheDirty = true := hd
    rw [if_pos hd1]
    exact ⟨m.entities, fun e he => he, rfl⟩

/-- `destroyEntity` on a present id: deactivate in place, mark dirty. -/
theorem destroyEntity_found {m : EntityManager} {i : Nat}
    (hmem : ∃ e ∈ m.entities, e.id = i) :
    destroyEntity m i
      = { m with entities := deactivateFirst m.entities i, tagCacheDirty := true } := by
  unfold destroyEntity
  rw [if_pos]
  obtain ⟨e, he, hid⟩ := hmem
  exact List.any_eq_true.mpr ⟨e, he, by simpa using hid⟩

/-- C3 (amended): after `destroyEntity`, the entity is immediately absent
from every component query (these scan active entities); it is absent from
tag queries only once the next `update()` has rebuilt the dirty cache; and
its storage slot is not physically erased while the inactive entity count is
below the compaction threshold of 10. -/
theorem destroyEntity_query_visibility (m : EntityManager) (i : Nat) (dt : ℚ)
    (hmem : ∃ e ∈ m.entities, e.id = i)
    (hnodup : (m.entities.map Entity.id).Nodup) :
    (∀ k, i ∉ getEntitiesWithComponent (destroyEntity m i) k)
    ∧ (∀ ks, i ∉ getEntitiesWithComponents (destroyEntity m i) ks)
    ∧ (∀ tag, i ∉ getEntitiesByTag (update (destroyEntity m i) dt) tag)
    ∧ (getTotalEntityCount (destroyEntity m i) - getEntityCount (destroyEntity m i) < 10 →
        cleanupInactiveEntities (destroyEntity m i) = destroyEntity m i) := by
  have hfound := destroyEntity_found hmem
  have hP : ∀ e ∈ (destroyEntity m i).entities, e.id = i → e.active = false := by
    rw [hfound]
    exact deactivateFirst_id_inactive hnodup
  refine ⟨?_, ?_, ?_, ?_⟩
  · intro k hin
    unfold getEntitiesWithComponent at hin
    obtain ⟨e, hef, hid⟩ := List.mem_map.mp hin
    obtain ⟨hee, hcond⟩ := List.mem_filter.mp hef
    have := hP e hee hid
    rw [this] at hcond
    simp at hcond
  · intro ks hin
    unfold getEntitiesWithComponents at hin
    obtain ⟨e, hef, hid⟩ := List.mem_map.mp hin
    obtain ⟨hee, hcond⟩ := List.mem_filter.mp hef
    have := hP e hee hid
    rw [this] at hcond
    simp at hcond
  · intro tag
    have hdirty : (destroyEntity m i).tagCacheDirty = true := by rw [hfound]
    obtain ⟨es, hsub, hcache⟩ := update_rebuilds dt hdirty
    unfold getEntitiesByTag
    rw [hcache]
    exact rebuild_not_mem es [] (fun _ h => (List.not_mem_nil _) h)
      (fun e he => hP e (hsub e he)) tag
  · intro hlt
    have hlt' : (destroyEntity m i).entities.length - getEntityCount (destroyEntity m i) < 10 :=
      hlt
    simp only [cleanupInactiveEntities]
    rw [if_pos hlt']

theorem destroyEntity_query_visibility_witness :
    0 ∉ getEntitiesWithComponent (destroyEntity mgrOneActive 0) 1
      ∧ 0 ∉ getEntitiesWithComponents (destroyEntity mgrOneActive 0) [1]
      ∧ 0 ∉ getEntitiesByTag (update (destroyEntity mgrOneActive 0) (1/4)) "Enemy"
      ∧ cleanupInactiveEntities (destroyEntity mgrOneActive 0)
          = destroyEntity mgrOneActive 0 := by
  have h := destroyEntity_query_visibility mgrOneActive 0 (1/4)
    ⟨mgrOneActive.entities.head (by decide), by decide, by decide⟩ (by decide)
  exact ⟨h.1 1, h.2.1 [1], h.2.2.1 "Enemy", h.2.2.2 (by decide)⟩

/-! ## EventManager (src/Managers/EventManager.h)

An event is a `(GameEventType, payload)` pair; both components are numeric
stand-ins (the drain logic never inspects them). Listener behaviour is
abstracted by an `effect` function giving, for each delivered event, the
list of events the invoked listeners pass to `queueEvent` in response: the
only listener side effect visible to the queue itself.

`processEvents` iterates the queue vector by the iterators captured when
the range-for begins, so entries appended during the drain are not visited
(assuming the vector does not reallocate); after the full pass it calls
`eventQueue.clear()`, which erases the original entries *and* everything
queued during the drain. -/

/-- A queued event: `(eventType, payload)`. -/
def QueuedEvent : Type := Nat × Nat

instance : DecidableEq QueuedEvent := by unfold QueuedEvent; infer_instance

/-- Event bus state: the FIFO `eventQueue`. -/
structure EventBusState where
  queue : List QueuedEvent

instance : DecidableEq EventBusState := by
  rintro ⟨a⟩ ⟨b⟩
  by_cases h : a = b
  · exact isTrue (by rw [h])
  · exact isFalse (fun hc => h (by cases hc; rfl))

/-- `EventManager::queueEvent`: append to the FIFO queue. -/
def queueEvent (st : EventBusState) (ev : QueuedEvent) : EventBusState :=
  ⟨st.queue ++ [ev]⟩

/-- The drain loop of `processEvents`: walk the snapshot of the queue taken
when iteration began; each `emit` may append listener-queued events to the
live queue. Returns the live queue at loop exit and the delivery order. -/
def drainLoop (effect : QueuedEvent → List QueuedEvent) :
    List QueuedEvent → List QueuedEvent → List QueuedEvent →
    List QueuedEvent × List QueuedEvent
  | [], queue, delivered => (queue, delivered)
  | ev :: pending, queue, delivered =>
    drainLoop effect pending (queue ++ effect ev) (delivered ++ [ev])

/-- `EventManager::processEvents`: drain the queue in FIFO order, then
`eventQueue.clear()`. Returns the new state and the delivered events. -/
def processEvents (effect : QueuedEvent → List QueuedEvent) (st : EventBusState) :
    EventBusState × List QueuedEvent :=
  let result := drainLoop effect st.queue st.queue []
  (⟨[]⟩, result.2)

theorem drainLoop_delivered (effect : QueuedEvent → List QueuedEvent) :
    ∀ (pending queue delivered : List QueuedEvent),
      (drainLoop effect pending queue delivered).2 = delivered ++ pending := by
  intro pending
  induction pending with
  | nil => intro queue delivered; simp [drainLoop]
  | cons ev rest ih =>
    intro queue delivered
    rw [drainLoop, ih]
    simp

/-- `processEvents` delivers exactly the events that were queued when the
drain began, in FIFO order. -/
theorem processEvents_delivered (effect : QueuedEvent → List QueuedEvent)
    (st : EventBusState) : (processEvents effect st).2 = st.queue := by
  unfold processEvents
  rw [drainLoop_delivered]
  simp

/-- C5 (counterexample): one pending event `(0, 0)` whose listener queues
`(1, 1)` during the drain. The new event is not delivered during the
current drain — but it also does not survive: the queue is empty after
`processEvents` and the next `processEvents` call delivers nothing, so the
claim that the entry is delivered during the next drain is false. -/
theorem queueEvent_during_drain_dropped :
    ((1, 1) : QueuedEvent) ∉
        (processEvents (fun ev => if ev = (0, 0) then [((1, 1) : QueuedEvent)] else [])
          ⟨[(0, 0)]⟩).2
      ∧ (processEvents (fun ev => if ev = (0, 0) then [((1, 1) : QueuedEvent)] else [])
          ⟨[(0, 0)]⟩).1.queue = []
      ∧ (processEvents (fun ev => if ev = (0, 0) then [((1, 1) : QueuedEvent)] else [])
          (processEvents (fun ev => if ev = (0, 0) then [((1, 1) : QueuedEvent)] else [])
            ⟨[(0, 0)]⟩).1).2 = [] := by
  refine ⟨?_, rfl, rfl⟩
  rw [processEvents_delivered]
  decide

/-- C5 (amended): an event queued by a listener during the drain is not
delivered in the current drain (delivery is exactly the starting queue);
`eventQueue.clear()` then empties the whole queue, so such an event does not
survive the drain and the next `processEvents` call delivers nothing queued
during the previous drain — the entry is lost, not deferred. -/
theorem processEvents_drain_semantics (effect : QueuedEvent → List QueuedEvent)
    (st : EventBusState) (ev : QueuedEvent) (hnew : ev ∉ st.queue) :
    ev ∉ (processEvents effect st).2
      ∧ (processEvents effect st).1.queue = []
      ∧ (processEvents effect (processEvents effect st).1).2 = [] := by
  refine ⟨?_, ?_, ?_⟩
  · rw [processEvents_delivered]
    exact hnew
  · unfold processEvents
    rfl
  · rw [processEvents_delivered]
    unfold processEvents
    rfl

theorem processEvents_drain_semantics_witness :
    ((1, 1) : QueuedEvent) ∉
        (processEvents (fun _ => [((1, 1) : QueuedEvent)]) ⟨[(0, 0)]⟩).2
      ∧ (processEvents (fun _ => [((1, 1) : QueuedEvent)]) ⟨[(0, 0)]⟩).1.queue = []
      ∧ (processEvents (fun _ => [((1, 1) : QueuedEvent)])
          (processEvents (fun _ => [((1, 1) : QueuedEvent)]) ⟨[(0, 0)]⟩).1).2 = [] :=
  processEvents_drain_semantics (fun _ => [((1, 1) : QueuedEvent)]) ⟨[(0, 0)]⟩
    ((1, 1) : QueuedEvent) (by decide)

/-! ## Projectile (src/ECS/Components/Projectile.h)

The component's `owner->setActive(false)` calls are modelled by threading
the owning entity's active flag through `recordHit` as a `Bool`. -/

/-- `Projectile` component data. -/
structure Projectile where
  damage : ℚ
  piercing : ℤ
  maxPiercing : ℤ
  lifetime : ℚ
  maxLifetime : ℚ
  ownerTag : String
  hitEntities : List Nat
deriving DecidableEq

/-- The `Projectile(damage, piercing, lifetime, ownerTag)` constructor. -/
def mkProjectile (damage : ℚ) (piercing : ℤ) (lifetime : ℚ) (ownerTag : String) :
    Projectile :=
  { damage := damage, piercing := piercing, maxPiercing := piercing
    lifetime := lifetime, maxLifetime := lifetime, ownerTag := ownerTag
    hitEntities := [] }

/-- `Projectile::canHit`: false exactly when the id was already hit. -/
def canHit (p : Projectile) (entityId : Nat) : Bool :=
  !(p.hitEntities.any (fun hitId => hitId = entityId))

/-- `Projectile::recordHit`: push the id, decrement piercing, deactivate the
owner when piercing has reached zero. Returns the updated component and the
owner's new active flag. -/
def recordHit (p : Projectile) (ownerActive : Bool) (entityId : Nat) :
    Projectile × Bool :=
  let p' := { p with hitEntities := p.hitEntities ++ [entityId],
                     piercing := p.piercing - 1 }
  (p', if p'.piercing ≤ 0 then false else ownerActive)

/-- A sequence of `recordHit` calls, threading component and owner flag. -/
def recordHits (s : Projectile × Bool) (ids : List Nat) : Projectile × Bool :=
  ids.foldl (fun s i => recordHit s.1 s.2 i) s

theorem canHit_eq_false_iff (p : Projectile) (t : Nat) :
    canHit p t = false ↔ t ∈ p.hitEntities := by
  unfold canHit
  rw [Bool.not_eq_false', List.any_eq_true]
  constructor
  · rintro ⟨x, hx, hxt⟩
    have : x = t := by simpa using hxt
    exact this ▸ hx
  · intro ht
    exact ⟨t, ht, by simp⟩

theorem recordHits_hitEntities (ids : List Nat) :
    ∀ (p : Projectile) (a : Bool),
      (recordHits (p, a) ids).1.hitEntities = p.hitEntities ++ ids := by
  induction ids with
  | nil => intro p a; simp [recordHits]
  | cons t rest ih =>
    intro p a
    unfold recordHits at ih ⊢
    rw [List.foldl_cons]
    show (recordHits (recordHit p a t) rest).1.hitEntities = _
    unfold recordHits
    rw [ih]
    simp [recordHit]

/-- Once the owner is inactive, later `recordHit` calls keep it inactive. -/
theorem recordHits_owner_stays_inactive (ids : List Nat) :
    ∀ (p : Projectile), (recordHits (p, false) ids).2 = false := by
  induction ids with
  | nil => intro p; rfl
  | cons t rest ih =>
    intro p
    unfold recordHits
    rw [List.foldl_cons]
    show (recordHits (recordHit p false t) rest).2 = false
    have h2 : (recordHit p false t).2 = false := by
      unfold recordHit
      by_cases h : p.piercing - 1 ≤ 0 <;> simp [h]
    cases hrec : recordHit p false t with
    | mk p1 b1 =>
      rw [hrec] at h2
      simp at h2
      subst h2
      exact ih p1

/-- C6: a projectile created with `piercing = 1` deactivates its owner on
the first `recordHit`; after any nonempty sequence of recorded hits the
owner is inactive, and `canHit` answers false for every id already passed
to `recordHit`. -/
theorem projectile_piercing_one (damage lifetime : ℚ) (tag : String)
    (act : Bool) (tid : Nat) (ids : List Nat) (hne : ids ≠ []) :
    (recordHit (mkProjectile damage 1 lifetime tag) act tid).2 = false
    ∧ (∀ t ∈ ids, canHit (recordHits (mkProjectile damage 1 lifetime tag, act) ids).1 t
        = false)
    ∧ (recordHits (mkProjectile damage 1 lifetime tag, act) ids).2 = false := by
  refine ⟨?_, ?_, ?_⟩
  · unfold recordHit mkProjectile
    norm_num
  · intro t ht
    rw [canHit_eq_false_iff, recordHits_hitEntities]
    exact List.mem_append_right _ ht
  · cases ids with
    | nil => exact absurd rfl hne
    | cons t rest =>
      unfold recordHits
      rw [List.foldl_cons]
      have h2 : (recordHit (mkProjectile damage 1 lifetime tag) act t).2 = false := by
        unfold recordHit mkProjectile
        norm_num
      cases hrec : recordHit (mkProjectile damage 1 lifetime tag) act t with
      | mk p1 b1 =>
        rw [hrec] at h2
        simp at h2
        subst h2
        exact recordHits_owner_stays_inactive rest p1

theorem projectile_piercing_one_witness :
    (recordHit (mkProjectile 5 1 3 "Player") true 9).2 = false
    ∧ canHit (recordHits (mkProjectile 5 1 3 "Player", true) [9]).1 9 = false
    ∧ (recordHits (mkProjectile 5 1 3 "Player", true) [9]).2 = false :=
  have h := projectile_piercing_one 5 3 "Player" true 9 [9] (by decide)
  ⟨h.1, h.2.1 9 (List.mem_singleton.mpr rfl), h.2.2⟩

/-! ### Collider narrow-phase characterization (C8) -/

theorem not_gate_of_intersects {a b : Collider} {pa pb : Vec2 ℝ}
    (h : Intersects a b pa pb) :
    ¬(a.layer &&& b.mask = 0 ∧ b.layer &&& a.mask = 0) := by
  intro hg
  unfold Intersects at h
  rw [if_pos hg] at h
  exact h

theorem Intersects_circle_circle {a b : Collider} (pa pb : Vec2 ℝ)
    (hgate : ¬(a.layer &&& b.mask = 0 ∧ b.layer &&& a.mask = 0))
    (ha : a.shape = ColliderShape.Circle) (hb : b.shape = ColliderShape.Circle) :
    Intersects a b pa pb ↔ distance pa pb < a.radius + b.radius := by
  unfold Intersects
  rw [if_neg hgate, if_pos ⟨ha, hb⟩]

theorem Intersects_rect_rect {a b : Collider} (pa pb : Vec2 ℝ)
    (hgate : ¬(a.layer &&& b.mask = 0 ∧ b.layer &&& a.mask = 0))
    (ha : a.shape = ColliderShape.Rectangle) (hb : b.shape = ColliderShape.Rectangle) :
    Intersects a b pa pb ↔ rectRectOverlap pa a.size pb b.size := by
  unfold Intersects
  rw [if_neg hgate, if_neg (by rw [ha]; rintro ⟨h1, -⟩; cases h1), if_pos ⟨ha, hb⟩]

theorem Intersects_circle_rect {a b : Collider} (pa pb : Vec2 ℝ)
    (hgate : ¬(a.layer &&& b.mask = 0 ∧ b.layer &&& a.mask = 0))
    (ha : a.shape = ColliderShape.Circle) (hb : b.shape = ColliderShape.Rectangle) :
    Intersects a b pa pb ↔ circleRectIntersect pa a.radius pb b.size := by
  unfold Intersects
  rw [if_neg hgate, if_neg (by rw [hb]; rintro ⟨-, h2⟩; cases h2),
    if_neg (by rw [ha]; rintro ⟨h1, -⟩; cases h1), if_pos ha]

theorem Intersects_rect_circle {a b : Collider} (pa pb : Vec2 ℝ)
    (hgate : ¬(a.layer &&& b.mask = 0 ∧ b.layer &&& a.mask = 0))
    (ha : a.shape = ColliderShape.Rectangle) (hb : b.shape = ColliderShape.Circle) :
    Intersects a b pa pb ↔ circleRectIntersect pb b.radius pa a.size := by
  unfold Intersects
  rw [if_neg hgate, if_neg (by rw [ha]; rintro ⟨h1, -⟩; cases h1),
    if_neg (by rw [hb]; rintro ⟨-, h2⟩; cases h2), if_neg (by rw [ha]; rintro h1; cases h1)]

/-- Distance between two points on the x axis. -/
theorem distance_axis (x1 x2 : ℝ) (h : x1 ≤ x2) :
    distance ⟨x1, 0⟩ ⟨x2, 0⟩ = x2 - x1 := by
  unfold distance
  rw [Vec2.sub_def]
  have hv : (⟨x2 - x1, 0 - 0⟩ : Vec2 ℝ) = ⟨x2 - x1, 0⟩ := by
    rw [Vec2.mk.injEq]
    norm_num
  rw [hv]
  exact magnitude_axis (x2 - x1) (by linarith)

/-- C8: the layer/mask gate makes `intersects` false whenever both bitwise
tests are zero; otherwise exactly three shape cases decide the result
(circle–circle by centre distance vs summed radii, rectangle–rectangle by
axis-aligned box overlap, circle–rectangle by squared distance from the
circle centre to the closest box point vs squared radius); and two
radius-10 circles intersect at centre distance 15 but not at 25. -/
theorem collider_intersects_characterization :
    (∀ (a b : Collider) (pa pb : Vec2 ℝ),
        a.layer &&& b.mask = 0 ∧ b.layer &&& a.mask = 0 → ¬ Intersects a b pa pb)
    ∧ (∀ (a b : Collider) (pa pb : Vec2 ℝ),
        ¬(a.layer &&& b.mask = 0 ∧ b.layer &&& a.mask = 0) →
          (a.shape = ColliderShape.Circle ∧ b.shape = ColliderShape.Circle →
              (Intersects a b pa pb ↔ distance pa pb < a.radius + b.radius))
          ∧ (a.shape = ColliderShape.Rectangle ∧ b.shape = ColliderShape.Rectangle →
              (Intersects a b pa pb ↔ rectRectOverlap pa a.size pb b.size))
          ∧ (a.shape = ColliderShape.Circle ∧ b.shape = ColliderShape.Rectangle →
              (Intersects a b pa pb ↔ circleRectIntersect pa a.radius pb b.size))
          ∧ (a.shape = ColliderShape.Rectangle ∧ b.shape = ColliderShape.Circle →
              (Intersects a b pa pb ↔ circleRectIntersect pb b.radius pa a.size)))
    ∧ Intersects (mkRadiusCollider ColliderShape.Circle 10)
        (mkRadiusCollider ColliderShape.Circle 10) ⟨0, 0⟩ ⟨15, 0⟩
    ∧ ¬ Intersects (mkRadiusCollider ColliderShape.Circle 10)
        (mkRadiusCollider ColliderShape.Circle 10) ⟨0, 0⟩ ⟨25, 0⟩ := by
  have hgate10 : ¬((mkRadiusCollider ColliderShape.Circle 10).layer
        &&& (mkRadiusCollider ColliderShape.Circle 10).mask = 0
      ∧ (mkRadiusCollider ColliderShape.Circle 10).layer
        &&& (mkRadiusCollider ColliderShape.Circle 10).mask = 0) := by
    simp [mkRadiusCollider]
  refine ⟨?_, ?_, ?_, ?_⟩
  · intro a b pa pb hg h
    exact not_gate_of_intersects h hg
  · intro a b pa pb hg
    exact ⟨fun hs => Intersects_circle_circle pa pb hg hs.1 hs.2,
      fun hs => Intersects_rect_rect pa pb hg hs.1 hs.2,
      fun hs => Intersects_circle_rect pa pb hg hs.1 hs.2,
      fun hs => Intersects_rect_circle pa pb hg hs.1 hs.2⟩
  · rw [Intersects_circle_circle _ _ hgate10 rfl rfl, distance_axis 0 15 (by norm_num)]
    norm_num [mkRadiusCollider]
  · rw [Intersects_circle_circle _ _ hgate10 rfl rfl, distance_axis 0 25 (by norm_num)]
    norm_num [mkRadiusCollider]

/-- Concrete instantiation of C8's conditional parts: for the two radius-10
circles the gate is open and the circle–circle case characterises the
outcome at centre distance 15. -/
theorem collider_intersects_characterization_witness :
    (Intersects (mkRadiusCollider ColliderShape.Circle 10)
        (mkRadiusCollider ColliderShape.Circle 10) ⟨0, 0⟩ ⟨15, 0⟩
      ↔ distance (⟨0, 0⟩ : Vec2 ℝ) ⟨15, 0⟩
          < (mkRadiusCollider ColliderShape.Circle 10).radius
            + (mkRadiusCollider ColliderShape.Circle 10).radius)
    ∧ Intersects (mkRadiusCollider ColliderShape.Circle 10)
        (mkRadiusCollider ColliderShape.Circle 10) ⟨0, 0⟩ ⟨15, 0⟩
    ∧ ¬ Intersects (mkRadiusCollider ColliderShape.Circle 10)
        (mkRadiusCollider ColliderShape.Circle 10) ⟨0, 0⟩ ⟨25, 0⟩ :=
  ⟨(collider_intersects_characterization.2.1 _ _ _ _
      (by simp [mkRadiusCollider])).1 ⟨rfl, rfl⟩,
   collider_intersects_characterization.2.2.1,
   collider_intersects_characterization.2.2.2⟩

/-! ## CollisionSystem (src/Systems/CollisionSystem.h)

`handlePlayerEnemyCollisions` and the separation loop body. An entity is
seen by these passes through its optional Transform/Collider/Health
components. Branching on the real-valued `Intersects` test is classical
(the C++ compares floats); the pass functions are therefore noncomputable
but fully determined. -/

/-- `Health` component data (src/ECS/Components/Health.h). -/
structure Health where
  currentHealth : ℝ
  maxHealth : ℝ
  invulnerable : Bool

/-- `Health::takeDamage`: no-op when invulnerable or already dead, else
subtract and clamp at zero (callbacks carry no state here). -/
noncomputable def takeDamage (h : Health) (damage : ℝ) : Health :=
  if h.invulnerable = true ∨ h.currentHealth ≤ 0 then h
  else { h with currentHealth := max 0 (h.currentHealth - damage) }

/-- An entity as the collision passes see it. -/
structure CEntity where
  transform : Option (Vec2 ℝ)
  collider : Option Collider
  health : Option Health

open Classical in
/-- The inner enemy loop of `handlePlayerEnemyCollisions`: does some enemy
with both components collide with the given player collider? (Enemies with
missing components are skipped.) -/
noncomputable def anyEnemyHit (pcol : Collider) (ppos : Vec2 ℝ) :
    List CEntity → Bool
  | [] => false
  | e :: rest =>
    match e.transform, e.collider with
    | some epos, some ecol =>
      if Intersects pcol ecol ppos epos then true else anyEnemyHit pcol ppos rest
    | _, _ => anyEnemyHit pcol ppos rest

open Classical in
/-- The outer player loop: on the first player (with all three components)
that some enemy overlaps, apply `takeDamage(5)` to that player's Health and
return immediately (the remaining players are left untouched); the `Bool`
records whether damage was applied. -/
noncomputable def scanPlayers (enemies : List CEntity) :
    List CEntity → List CEntity × Bool
  | [] => ([], false)
  | p :: rest =>
    match p.transform, p.collider, p.health with
    | some ppos, some pcol, some php =>
      if anyEnemyHit pcol ppos enemies then
        ({ p with health := some (takeDamage php 5) } :: rest, true)
      else
        let r := scanPlayers enemies rest
        (p :: r.1, r.2)
    | _, _, _ =>
      let r := scanPlayers enemies rest
      (p :: r.1, r.2)

/-- `CollisionSystem::handlePlayerEnemyCollisions`: early-out while the
global damage cooldown is positive; otherwise run the scan and reset the
cooldown to the full interval exactly when damage was applied. -/
noncomputable def handlePlayerEnemyCollisions (interval cooldown : ℝ)
    (players enemies : List CEntity) : List CEntity × ℝ :=
  if 0 < cooldown then (players, cooldown)
  else
    let r := scanPlayers enemies players
    (r.1, if r.2 then interval else cooldown)

/-- The player list after a pass differs from the one before in at most one
entry, and that entry by exactly one `takeDamage(5)` application. -/
def DamagedOnce (before afterList : List CEntity) : Prop :=
  afterList = before ∨
    ∃ pre p post h, before = pre ++ p :: post ∧ p.health = some h
      ∧ afterList = pre ++ { p with health := some (takeDamage h 5) } :: post

theorem scanPlayers_spec (enemies : List CEntity) :
    ∀ players : List CEntity,
      DamagedOnce players (scanPlayers enemies players).1
        ∧ ((scanPlayers enemies players).2 = false →
            (scanPlayers enemies players).1 = players) := by
  intro players
  induction players with
  | nil => exact ⟨Or.inl rfl, fun _ => rfl⟩
  | cons p rest ih =>
    obtain ⟨otr, oco, ohe⟩ := p
    cases otr with
    | none =>
      constructor
      · rcases ih.1 with h | ⟨pre, q, post, hh, hsp, hha⟩
        · exact Or.inl (by simp [scanPlayers, h])
        · exact Or.inr ⟨⟨none, oco, ohe⟩ :: pre, q, post, hh,
            by simp [hsp], by simp [scanPlayers, hha]⟩
      · intro hfl
        have : (scanPlayers enemies rest).2 = false := by
          simpa [scanPlayers] using hfl
        simp [scanPlayers, ih.2 this]
    | some ppos =>
      cases oco with
      | none =>
        constructor
        · rcases ih.1 with h | ⟨pre, q, post, hh, hsp, hha⟩
          · exact Or.inl (by simp [scanPlayers, h])
          · exact Or.inr ⟨⟨some ppos, none, ohe⟩ :: pre, q, post, hh,
              by simp [hsp], by simp [scanPlayers, hha]⟩
        · intro hfl
          have : (scanPlayers enemies rest).2 = false := by
            simpa [scanPlayers] using hfl
          simp [scanPlayers, ih.2 this]
      | some pcol =>
        cases ohe with
        | none =>
          constructor
          · rcases ih.1 with h | ⟨pre, q, post, hh, hsp, hha⟩
            · exact Or.inl (by simp [scanPlayers, h])
            · exact Or.inr ⟨⟨some ppos, some pcol, none⟩ :: pre, q, post, hh,
                by simp [hsp], by simp [scanPlayers, hha]⟩
          · intro hfl
            have : (scanPlayers enemies rest).2 = false := by
              simpa [scanPlayers] using hfl
            simp [scanPlayers, ih.2 this]
        | some php =>
          by_cases hhit : anyEnemyHit pcol ppos enemies = true
          · constructor
            · exact Or.inr ⟨[], ⟨some ppos, some pcol, some php⟩, rest, php,
                rfl, rfl, by simp [scanPlayers, hhit]⟩
            · intro hfl
              exfalso
              have : (scanPlayers enemies (⟨some ppos, some pcol, some php⟩ :: rest)).2
                  = true := by simp [scanPlayers, hhit]
              rw [this] at hfl
              cases hfl
          · have hhit' : anyEnemyHit pcol ppos enemies = false :=
              Bool.not_eq_true _ ▸ (by simpa using hhit)
            constructor
            · rcases ih.1 with h | ⟨pre, q, post, hh, hsp, hha⟩
              · exact Or.inl (by simp [scanPlayers, hhit', h])
              · exact Or.inr ⟨⟨some ppos, some pcol, some php⟩ :: pre, q, post, hh,
                  by simp [hsp], by simp [scanPlayers, hhit', hha]⟩
            · intro hfl
              have : (scanPlayers enemies rest).2 = false := by
                simpa [scanPlayers, hhit'] using hfl
              simp [scanPlayers, hhit', ih.2 this]

/-- C7: during one damage pass, when the global cooldown is positive nothing
is touched; otherwise the player list changes by at most one `takeDamage`
application (no matter how many enemies overlap), and the cooldown is reset
to the full interval exactly when damage was applied. -/
theorem playerEnemy_damage_once (interval cooldown : ℝ)
    (players enemies : List CEntity) :
    (0 < cooldown →
        handlePlayerEnemyCollisions interval cooldown players enemies
          = (players, cooldown))
    ∧ (¬ 0 < cooldown →
        (handlePlayerEnemyCollisions interval cooldown players enemies).1
            = (scanPlayers enemies players).1
          ∧ DamagedOnce players (scanPlayers enemies players).1
          ∧ ((scanPlayers enemies players).2 = true →
              (handlePlayerEnemyCollisions interval cooldown players enemies).2
                = interval)
          ∧ ((scanPlayers enemies players).2 = false →
              (scanPlayers enemies players).1 = players
                ∧ (handlePlayerEnemyCollisions interval cooldown players enemies).2
                    = cooldown)) := by
  constructor
  · intro h
    unfold handlePlayerEnemyCollisions
    rw [if_pos h]
  · intro h
    have hspec := scanPlayers_spec enemies players
    refine ⟨?_, hspec.1, ?_, ?_⟩
    · unfold handlePlayerEnemyCollisions
      rw [if_neg h]
    · intro hfl
      unfold handlePlayerEnemyCollisions
      rw [if_neg h]
      simp [hfl]
    · intro hfl
      refine ⟨hspec.2 hfl, ?_⟩
      unfold handlePlayerEnemyCollisions
      rw [if_neg h]
      simp [hfl]

/-- The player of the C7 witness scenario: at the origin with a radius-10
circle collider and full health. -/
noncomputable def wPlayer : CEntity :=
  ⟨some ⟨0, 0⟩, some (mkRadiusCollider ColliderShape.Circle 10),
   some ⟨100, 100, false⟩⟩

/-- First overlapping enemy of the C7 witness scenario. -/
noncomputable def wEnemyA : CEntity :=
  ⟨some ⟨5, 0⟩, some (mkRadiusCollider ColliderShape.Circle 10), none⟩

/-- Second overlapping enemy of the C7 witness scenario. -/
noncomputable def wEnemyB : CEntity :=
  ⟨some ⟨8, 0⟩, some (mkRadiusCollider ColliderShape.Circle 10), none⟩

theorem playerEnemy_damage_once_witness :
    handlePlayerEnemyCollisions (1/2) 1 [wPlayer] [wEnemyA, wEnemyB]
        = ([wPlayer], 1)
      ∧ DamagedOnce [wPlayer] (scanPlayers [wEnemyA, wEnemyB] [wPlayer]).1
      ∧ (handlePlayerEnemyCollisions (1/2) 0 [wPlayer] [wEnemyA, wEnemyB]).2
          = 1/2 := by
  have hI : Intersects (mkRadiusCollider ColliderShape.Circle 10)
      (mkRadiusCollider ColliderShape.Circle 10) ⟨0, 0⟩ ⟨5, 0⟩ := by
    rw [Intersects_circle_circle _ _ (by simp [mkRadiusCollider]) rfl rfl,
      distance_axis 0 5 (by norm_num)]
    norm_num [mkRadiusCollider]
  have hhit : anyEnemyHit (mkRadiusCollider ColliderShape.Circle 10) ⟨0, 0⟩
      [wEnemyA, wEnemyB] = true := by
    simp [anyEnemyHit, wEnemyA, hI]
  have hflag : (scanPlayers [wEnemyA, wEnemyB] [wPlayer]).2 = true := by
    simp [scanPlayers, wPlayer, hhit]
  have hA := playerEnemy_damage_once (1/2) 1 [wPlayer] [wEnemyA, wEnemyB]
  have hB := playerEnemy_damage_once (1/2) 0 [wPlayer] [wEnemyA, wEnemyB]
  exact ⟨hA.1 (by norm_num), (hB.2 (by norm_num)).2.1,
    (hB.2 (by norm_num)).2.2.1 hflag⟩

/-! ### Enemy separation pass (C9) -/

/-- The penetration depth of the separation pass: circle-circle overlap is
the summed radii minus the centre distance; any other shape pair uses the
fixed fallback depth 10. -/
noncomputable def separationOverlap (cA cB : Collider) (pA pB : Vec2 ℝ) : ℝ :=
  if cA.shape = ColliderShape.Circle ∧ cB.shape = ColliderShape.Circle then
    cA.radius + cB.radius - magnitude (pB - pA)
  else 10

open Classical in
/-- The loop body of `handleEnemySeparation` for one pair (A, B): when the
colliders overlap and the centre distance is positive, displace both
entities apart along the normalised connecting vector, each by half the
penetration depth; otherwise leave both positions unchanged. -/
noncomputable def separatePair (cA cB : Collider) (pA pB : Vec2 ℝ) :
    Vec2 ℝ × Vec2 ℝ :=
  if Intersects cA cB pA pB then
    if 0 < magnitude (pB - pA) then
      (pA - (separationOverlap cA cB pA pB * 0.5) • normalizeVec (pB - pA),
       pB + (separationOverlap cA cB pA pB * 0.5) • normalizeVec (pB - pA))
    else (pA, pB)
  else (pA, pB)

theorem magnitude_scale (c : ℝ) (v : Vec2 ℝ) :
    magnitude ⟨c * v.x, c * v.y⟩ = |c| * magnitude v := by
  unfold magnitude
  have h : c * v.x * (c * v.x) + c * v.y * (c * v.y)
      = c ^ 2 * (v.x * v.x + v.y * v.y) := by ring
  rw [h, Real.sqrt_mul (sq_nonneg c), Real.sqrt_sq_eq_abs]

/-- C9: for two overlapping circle colliders at positive centre distance,
one separation step displaces the two entities symmetrically along the
connecting unit vector, each by half the penetration depth (summed radii
minus distance), and the resulting centre distance equals the summed radii. -/
theorem enemySeparation_symmetric (cA cB : Collider) (pA pB : Vec2 ℝ)
    (hA : cA.shape = ColliderShape.Circle) (hB : cB.shape = ColliderShape.Circle)
    (hint : Intersects cA cB pA pB) (hdist : 0 < magnitude (pB - pA)) :
    separatePair cA cB pA pB
        = (pA - ((cA.radius + cB.radius - magnitude (pB - pA)) * 0.5)
              • normalizeVec (pB - pA),
           pB + ((cA.radius + cB.radius - magnitude (pB - pA)) * 0.5)
              • normalizeVec (pB - pA))
      ∧ distance (separatePair cA cB pA pB).1 (separatePair cA cB pA pB).2
          = cA.radius + cB.radius := by
  have hov : separationOverlap cA cB pA pB
      = cA.radius + cB.radius - magnitude (pB - pA) := by
    unfold separationOverlap
    rw [if_pos ⟨hA, hB⟩]
  have heq : separatePair cA cB pA pB
      = (pA - ((cA.radius + cB.radius - magnitude (pB - pA)) * 0.5)
            • normalizeVec (pB - pA),
         pB + ((cA.radius + cB.radius - magnitude (pB - pA)) * 0.5)
            • normalizeVec (pB - pA)) := by
    unfold separatePair
    rw [if_pos hint, if_pos hdist, hov]
  refine ⟨heq, ?_⟩
  have hsum : magnitude (pB - pA) < cA.radius + cB.radius := by
    have h := (Intersects_circle_circle pA pB (not_gate_of_intersects hint) hA hB).mp hint
    simpa [distance] using h
  rw [heq]
  unfold distance
  obtain ⟨ax, ay⟩ := pA
  obtain ⟨bx, by1⟩ := pB
  have hsub : (⟨bx, by1⟩ : Vec2 ℝ) - ⟨ax, ay⟩ = ⟨bx - ax, by1 - ay⟩ := rfl
  rw [hsub] at hdist hsum ⊢
  have hnz : magnitude (⟨bx - ax, by1 - ay⟩ : Vec2 ℝ) ≠ 0 := ne_of_gt hdist
  have hnorm : normalizeVec ⟨bx - ax, by1 - ay⟩
      = ⟨(bx - ax) / magnitude (⟨bx - ax, by1 - ay⟩ : Vec2 ℝ),
         (by1 - ay) / magnitude (⟨bx - ax, by1 - ay⟩ : Vec2 ℝ)⟩ := by
    unfold normalizeVec
    rw [if_neg hnz]
  rw [hnorm, Vec2.smul_def]
  have hmagpos : 0 < magnitude (⟨bx - ax, by1 - ay⟩ : Vec2 ℝ) := hdist
  have key : ((⟨bx, by1⟩ : Vec2 ℝ)
          + ⟨(cA.radius + cB.radius - magnitude (⟨bx - ax, by1 - ay⟩ : Vec2 ℝ)) * 0.5
              * ((⟨(bx - ax) / magnitude (⟨bx - ax, by1 - ay⟩ : Vec2 ℝ),
                  (by1 - ay) / magnitude (⟨bx - ax, by1 - ay⟩ : Vec2 ℝ)⟩ : Vec2 ℝ)).x,
             (cA.radius + cB.radius - magnitude (⟨bx - ax, by1 - ay⟩ : Vec2 ℝ)) * 0.5
              * ((⟨(bx - ax) / magnitude (⟨bx - ax, by1 - ay⟩ : Vec2 ℝ),
                  (by1 - ay) / magnitude (⟨bx - ax, by1 - ay⟩ : Vec2 ℝ)⟩ : Vec2 ℝ)).y⟩)
        - ((⟨ax, ay⟩ : Vec2 ℝ)
          - ⟨(cA.radius + cB.radius - magnitude (⟨bx - ax, by1 - ay⟩ : Vec2 ℝ)) * 0.5
              * ((⟨(bx - ax) / magnitude (⟨bx - ax, by1 - ay⟩ : Vec2 ℝ),
                  (by1 - ay) / magnitude (⟨bx - ax, by1 - ay⟩ : Vec2 ℝ)⟩ : Vec2 ℝ)).x,
             (cA.radius + cB.radius - magnitude (⟨bx - ax, by1 - ay⟩ : Vec2 ℝ)) * 0.5
              * ((⟨(bx - ax) / magnitude (⟨bx - ax, by1 - ay⟩ : Vec2 ℝ),
                  (by1 - ay) / magnitude (⟨bx - ax, by1 - ay⟩ : Vec2 ℝ)⟩ : Vec2 ℝ)).y⟩)
      = ⟨((cA.radius + cB.radius) / magnitude (⟨bx - ax, by1 - ay⟩ : Vec2 ℝ)) * (bx - ax),
         ((cA.radius + cB.radius) / magnitude (⟨bx - ax, by1 - ay⟩ : Vec2 ℝ)) * (by1 - ay)⟩ := by
    rw [Vec2.sub_def, Vec2.add_def, Vec2.sub_def, Vec2.mk.injEq]
    constructor
    · dsimp only
      field_simp
      ring
    · dsimp only
      field_simp
      ring
  rw [key]
  have hms := magnitude_scale
    ((cA.radius + cB.radius) / magnitude (⟨bx - ax, by1 - ay⟩ : Vec2 ℝ))
    ⟨bx - ax, by1 - ay⟩
  dsimp only at hms
  rw [hms]
  have hpos : 0 < (cA.radius + cB.radius) / magnitude (⟨bx - ax, by1 - ay⟩ : Vec2 ℝ) :=
    div_pos (lt_trans hmagpos hsum) hmagpos
  rw [abs_of_pos hpos]
  field_simp

/-- Concrete run of C9: two radius-10 circles with centres (0,0) and (10,0)
end the separation step at (-5,0) and (15,0), at centre distance 20. -/
theorem enemySeparation_symmetric_witness :
    separatePair (mkRadiusCollider ColliderShape.Circle 10)
        (mkRadiusCollider ColliderShape.Circle 10) ⟨0, 0⟩ ⟨10, 0⟩
      = (⟨-5, 0⟩, ⟨15, 0⟩)
    ∧ distance
        (separatePair (mkRadiusCollider ColliderShape.Circle 10)
          (mkRadiusCollider ColliderShape.Circle 10) ⟨0, 0⟩ ⟨10, 0⟩).1
        (separatePair (mkRadiusCollider ColliderShape.Circle 10)
          (mkRadiusCollider ColliderShape.Circle 10) ⟨0, 0⟩ ⟨10, 0⟩).2
      = 20 := by
  have hsub : (⟨10, 0⟩ : Vec2 ℝ) - ⟨0, 0⟩ = ⟨10 - 0, 0 - 0⟩ := rfl
  have hv : (⟨10 - 0, 0 - 0⟩ : Vec2 ℝ) = ⟨10, 0⟩ := by
    rw [Vec2.mk.injEq]
    norm_num
  have hm10 : magnitude ((⟨10, 0⟩ : Vec2 ℝ) - ⟨0, 0⟩) = 10 := by
    rw [hsub, hv]
    exact magnitude_axis 10 (by norm_num)
  have hint : Intersects (mkRadiusCollider ColliderShape.Circle 10)
      (mkRadiusCollider ColliderShape.Circle 10) ⟨0, 0⟩ ⟨10, 0⟩ := by
    rw [Intersects_circle_circle _ _ (by simp [mkRadiusCollider]) rfl rfl,
      distance_axis 0 10 (by norm_num)]
    norm_num [mkRadiusCollider]
  have hdist : 0 < magnitude ((⟨10, 0⟩ : Vec2 ℝ) - ⟨0, 0⟩) := by
    rw [hm10]
    norm_num
  have h := enemySeparation_symmetric (mkRadiusCollider ColliderShape.Circle 10)
    (mkRadiusCollider ColliderShape.Circle 10) ⟨0, 0⟩ ⟨10, 0⟩ rfl rfl hint hdist
  have hnv : normalizeVec ((⟨10, 0⟩ : Vec2 ℝ) - ⟨0, 0⟩) = ⟨1, 0⟩ := by
    rw [hsub, hv]
    unfold normalizeVec
    rw [if_neg (by rw [magnitude_axis 10 (by norm_num)]; norm_num)]
    rw [Vec2.mk.injEq]
    rw [magnitude_axis 10 (by norm_num)]
    norm_num
  constructor
  · rw [h.1, hm10, hnv, Vec2.smul_def]
    rw [Vec2.sub_def, Vec2.add_def]
    rw [Prod.mk.injEq, Vec2.mk.injEq, Vec2.mk.injEq]
    norm_num [mkRadiusCollider]
  · rw [h.2]
    norm_num [mkRadiusCollider]

end MediocreBONK
